import Mathlib

/-!
Verification development for the pui (Process Port Manager) core.

The source is a Python program (src/main.py) with two parts that carry the
domain logic:

* `get_port_processes` invokes the external listing tool (lsof), parses its
  text output into `(port, pid, process_name, "LISTEN")` tuples, deduplicates
  by port (first occurrence wins) and returns the entries sorted ascending by
  port.  The whole invocation is wrapped so that a missing tool or a
  subprocess failure yields the empty list.
* `PortProcessApp.action_kill_process` / `PortProcessApp._kill_process`
  implement the kill flow: selection, confirmation, SIGTERM delivery and
  outcome classification.

The shallow embedding below renders text as `List Char` and models the
Python string primitives the code uses (`str.strip`, `str.split()` with no
separator, `str.split(sep)`, `int(...)`) as executable Lean functions.
Python `int(...)` accepts an optional sign and ASCII digits with single
underscores between digits; surrounding whitespace is stripped.  (Non-ASCII
unicode digits, which Python would also accept, are out of scope of this
embedding; none of the concrete inputs below use them.)

The subprocess invocation is modelled by `RunResult`: either the captured
run (stdout text plus exit code, mirroring `check=False`), or the
`FileNotFoundError` / `subprocess.SubprocessError` branches caught by the
code.  Effects of the UI kill flow are reified as an `Effect` list; the
OS-level outcome of `psutil.Process(pid).send_signal(SIGTERM)` is the
`KillOutcome` parameter (which exception, if any, the call raised).
-/

namespace Pui

/-- Python str.strip with no argument: drop leading and trailing whitespace. -/
def pyStrip (s : List Char) : List Char :=
  ((s.dropWhile Char.isWhitespace).reverse.dropWhile Char.isWhitespace).reverse

/-- Python str.split(sep) for a one-character separator: splits at every
occurrence of the separator, keeping empty pieces. -/
def pySplitOn (sep : Char) : List Char → List (List Char)
  | [] => [[]]
  | c :: cs =>
    match pySplitOn sep cs with
    | [] => [[]]
    | h :: t => if c = sep then [] :: h :: t else (c :: h) :: t

/-- Python str.split() with no argument: split on whitespace runs, dropping
empty pieces. -/
def pySplitWS (s : List Char) : List (List Char) :=
  (List.splitOnP Char.isWhitespace s).filter (fun w => !w.isEmpty)

/-- Digit tail of the Python int() literal grammar: after a first digit,
further digits may be separated by single underscores. `acc` is the value
accumulated so far. -/
def pyDigits (acc : Nat) : List Char → Option Nat
  | [] => some acc
  | c :: cs =>
    if c.isDigit then pyDigits (acc * 10 + (c.toNat - 48)) cs
    else if c = '_' then
      match cs with
      | [] => none
      | c2 :: cs2 =>
        if c2.isDigit then pyDigits (acc * 10 + (c2.toNat - 48)) cs2 else none
    else none

/-- Nonempty digit sequence: first character must be a digit. -/
def pyDigitsStart : List Char → Option Nat
  | [] => none
  | c :: cs => if c.isDigit then pyDigits (c.toNat - 48) cs else none

/-- Python int(str): strip whitespace, optional single sign, then digits
(with single underscores allowed between digits). -/
def pyInt (s : List Char) : Option Int :=
  match pyStrip s with
  | '+' :: rest => (pyDigitsStart rest).map Int.ofNat
  | '-' :: rest => (pyDigitsStart rest).map (fun n => -(n : Int))
  | t => (pyDigitsStart t).map Int.ofNat

/-- One row of the inventory, the tuple (port, pid, process_name, status)
built by get_port_processes. -/
structure PortEntry where
  port : Int
  pid : Int
  process_name : List Char
  status : List Char
deriving DecidableEq, Repr

/-- The fixed status tag of every produced entry. -/
def listenStatus : List Char := ['L', 'I', 'S', 'T', 'E', 'N']

/-- Body of the per-line parse of get_port_processes, after the line has
been split into whitespace-separated fields: require at least 9 fields,
take the process name from field 0, the pid from field 1 via int(), and the
port from the text after the last colon of the second-to-last field (the
NAME column); any failure yields none (the line is skipped). -/
def parseParts (parts : List (List Char)) : Option PortEntry :=
  if parts.length < 9 then none
  else
    match pyInt (parts.getD 1 []) with
    | none => none
    | some pid =>
      let name_col := parts.getD (parts.length - 2) []
      if name_col.contains ':' then
        match pyInt ((pySplitOn ':' name_col).getLastD []) with
        | none => none
        | some port => some ⟨port, pid, parts.headD [], listenStatus⟩
      else none

/-- Parse of one output line: split on whitespace, then parseParts.  An
empty line produces no fields and is skipped, exactly as the explicit
empty-line test in the code does. -/
def parseLine (line : List Char) : Option PortEntry :=
  parseParts (pySplitWS line)

/-- The loop of get_port_processes over the data lines: parse each line,
skip unparsable ones, and keep only the first entry seen for each port
(`seen` is the accumulated set of ports, queried by membership only). -/
def processLines : List (List Char) → List Int → List PortEntry
  | [], _ => []
  | line :: rest, seen =>
    match parseLine line with
    | none => processLines rest seen
    | some e =>
      if e.port ∈ seen then processLines rest seen
      else e :: processLines rest (e.port :: seen)

/-- Comparison key of the final sorted(...) call: ascending port. -/
def portLE (a b : PortEntry) : Bool :=
  decide (a.port ≤ b.port)

/-- Outcome of the subprocess.run invocation of lsof: the captured stdout
and exit code when the tool ran (check=False, so a failing exit code still
returns normally), or one of the two exception classes the code catches. -/
inductive RunResult where
  | ok (stdout : List Char) (exitCode : Int)
  | fileNotFound
  | subprocessError

/-- Data lines of the captured stdout: strip, split on newlines, and drop
the first line (the lsof column header) unconditionally. -/
def outputLines (stdout : List Char) : List (List Char) :=
  (pySplitOn '\n' (pyStrip stdout)).drop 1

/-- get_port_processes as a function of the subprocess outcome: empty on
either caught exception, empty on empty stdout, otherwise the parsed,
deduplicated lines sorted ascending by port (Python sorted is a stable
merge sort; ports are distinct after deduplication).  The exit code is
never inspected. -/
def get_port_processes : RunResult → List PortEntry
  | .fileNotFound => []
  | .subprocessError => []
  | .ok stdout _ =>
    if stdout.isEmpty then []
    else (processLines (outputLines stdout) []).mergeSort portLE

/-- Observable effects of the kill flow, in program order. -/
inductive Effect where
  | setStatus (msg : String)
  | sendSignal (pid : Int)
  | notifyError (msg : String) (timeout : Nat)
  | refreshTable
deriving DecidableEq

/-- Outcome of psutil.Process(pid).send_signal(SIGTERM): success, or the
exception class raised (NoSuchProcess, AccessDenied, or any other
exception with its message). -/
inductive KillOutcome where
  | success
  | noSuchProcess
  | accessDenied
  | unexpected (msg : String)
deriving DecidableEq

/-- PortProcessApp._kill_process: send SIGTERM and classify the outcome.
Success and NoSuchProcess set the status bar and refresh the table;
AccessDenied and any unexpected exception notify an error with a
5-second timeout and do not refresh. -/
def kill_process (pid : Int) (process_name : String) (outcome : KillOutcome) :
    List Effect :=
  match outcome with
  | .success =>
    [.sendSignal pid,
     .setStatus ("Sent SIGTERM to " ++ process_name ++ " (PID: " ++ toString pid ++ ")"),
     .refreshTable]
  | .noSuchProcess =>
    [.setStatus ("Process " ++ toString pid ++ " no longer exists"),
     .refreshTable]
  | .accessDenied =>
    [.notifyError
      ("Permission denied: cannot kill " ++ process_name ++ " (PID: " ++ toString pid ++ ")")
      5]
  | .unexpected e =>
    [.notifyError ("Error killing process: " ++ e) 5]

/-- PortProcessApp.action_kill_process: with an empty table it only sets a
status message; otherwise it reads the selected row, asks for confirmation
(the boolean result of the modal screen is the `confirmed` parameter), and calls
_kill_process only on an affirmative answer.  Rows hold the (port, pid,
process name) triple the action re-reads from the table. -/
def action_kill_process (rows : List (Int × Int × String)) (cursor : Nat)
    (confirmed : Bool) (outcome : KillOutcome) : List Effect :=
  if rows.isEmpty then [.setStatus "No processes to kill"]
  else
    let row := rows.getD cursor (0, 0, "")
    if confirmed then kill_process row.2.1 row.2.2 outcome
    else []

/-- Specification-side observer: the parse of the first line of `lines`
whose record carries port `p` (backend-reported order). -/
def firstRecordWithPort (p : Int) (lines : List (List Char)) : Option PortEntry :=
  lines.findSome? (fun l => (parseLine l).bind (fun a => if a.port = p then some a else none))

/-- Data lines examined by get_port_processes for a given subprocess
outcome: none on a caught exception, otherwise the stripped, split,
header-dropped stdout. -/
def runLines : RunResult → List (List Char)
  | .ok stdout _ => outputLines stdout
  | .fileNotFound => []
  | .subprocessError => []

theorem processLines_port_not_mem :
    ∀ (lines : List (List Char)) (seen : List Int) (e : PortEntry),
      e ∈ processLines lines seen → e.port ∉ seen := by
  intro lines
  induction lines with
  | nil => intro seen e h; simp [processLines] at h
  | cons line rest ih =>
    intro seen e h
    cases hp : parseLine line with
    | none =>
      simp only [processLines, hp] at h
      exact ih seen e h
    | some a =>
      simp only [processLines, hp] at h
      by_cases hs : a.port ∈ seen
      · rw [if_pos hs] at h
        exact ih seen e h
      · rw [if_neg hs] at h
        rcases List.mem_cons.mp h with rfl | h2
        · exact hs
        · intro hmem
          exact ih _ e h2 (List.mem_cons_of_mem _ hmem)

theorem processLines_ports_nodup :
    ∀ (lines : List (List Char)) (seen : List Int),
      ((processLines lines seen).map PortEntry.port).Nodup := by
  intro lines
  induction lines with
  | nil => intro seen; simp [processLines]
  | cons line rest ih =>
    intro seen
    cases hp : parseLine line with
    | none => simp only [processLines, hp]; exact ih seen
    | some a =>
      simp only [processLines, hp]
      by_cases hs : a.port ∈ seen
      · rw [if_pos hs]; exact ih seen
      · rw [if_neg hs]
        simp only [List.map_cons, List.nodup_cons]
        refine ⟨?_, ih _⟩
        intro hmem
        rcases List.mem_map.mp hmem with ⟨e, he, hep⟩
        exact processLines_port_not_mem _ _ e he (hep ▸ List.mem_cons_self _ _)

theorem processLines_provenance :
    ∀ (lines : List (List Char)) (seen : List Int) (e : PortEntry),
      e ∈ processLines lines seen → ∃ l, l ∈ lines ∧ parseLine l = some e := by
  intro lines
  induction lines with
  | nil => intro seen e h; simp [processLines] at h
  | cons line rest ih =>
    intro seen e h
    cases hp : parseLine line with
    | none =>
      simp only [processLines, hp] at h
      rcases ih seen e h with ⟨l, hl, hpl⟩
      exact ⟨l, List.mem_cons_of_mem _ hl, hpl⟩
    | some a =>
      simp only [processLines, hp] at h
      by_cases hs : a.port ∈ seen
      · rw [if_pos hs] at h
        rcases ih seen e h with ⟨l, hl, hpl⟩
        exact ⟨l, List.mem_cons_of_mem _ hl, hpl⟩
      · rw [if_neg hs] at h
        rcases List.mem_cons.mp h with rfl | h2
        · exact ⟨line, List.mem_cons_self _ _, hp⟩
        · rcases ih _ e h2 with ⟨l, hl, hpl⟩
          exact ⟨l, List.mem_cons_of_mem _ hl, hpl⟩

theorem processLines_first_seen :
    ∀ (lines : List (List Char)) (seen : List Int) (e : PortEntry),
      e ∈ processLines lines seen → firstRecordWithPort e.port lines = some e := by
  intro lines
  induction lines with
  | nil => intro seen e h; simp [processLines] at h
  | cons line rest ih =>
    intro seen e h
    cases hp : parseLine line with
    | none =>
      simp only [processLines, hp] at h
      rw [firstRecordWithPort, List.findSome?_cons]
      simp only [hp, Option.bind]
      exact ih seen e h
    | some a =>
      simp only [processLines, hp] at h
      by_cases hs : a.port ∈ seen
      · rw [if_pos hs] at h
        have hne : a.port ≠ e.port := by
          intro heq
          exact processLines_port_not_mem rest seen e h (heq ▸ hs)
        rw [firstRecordWithPort, List.findSome?_cons]
        simp only [hp, Option.some_bind, if_neg hne]
        exact ih seen e h
      · rw [if_neg hs] at h
        rcases List.mem_cons.mp h with rfl | h2
        · rw [firstRecordWithPort, List.findSome?_cons]
          simp [hp]
        · have hne : a.port ≠ e.port := by
            intro heq
            exact processLines_port_not_mem rest (a.port :: seen) e h2
              (heq ▸ List.mem_cons_self _ _)
          rw [firstRecordWithPort, List.findSome?_cons]
          simp only [hp, Option.some_bind, if_neg hne]
          exact ih _ e h2

theorem pySplitOn_cons (sep c : Char) (cs : List Char) :
    pySplitOn sep (c :: cs) =
      match pySplitOn sep cs with
      | [] => [[]]
      | h :: t => if c = sep then [] :: h :: t else (c :: h) :: t := rfl

theorem pySplitOn_ne_nil (sep : Char) (s : List Char) : pySplitOn sep s ≠ [] := by
  cases s with
  | nil => simp [pySplitOn]
  | cons c cs =>
    simp only [pySplitOn]
    cases h : pySplitOn sep cs with
    | nil => simp
    | cons a t => by_cases hc : c = sep <;> simp [hc]

theorem pySplitOn_not_mem (sep : Char) (s : List Char) (h : sep ∉ s) :
    pySplitOn sep s = [s] := by
  induction s with
  | nil => rfl
  | cons c cs ih =>
    have hc : c ≠ sep := fun heq => h (heq ▸ List.mem_cons_self _ _)
    have hcs : sep ∉ cs := fun hm => h (List.mem_cons_of_mem _ hm)
    simp only [pySplitOn, ih hcs]
    simp [hc]

theorem pySplitOn_append_sep (sep : Char) (pre ds : List Char) (h : sep ∉ ds) :
    pySplitOn sep (pre ++ sep :: ds) = pySplitOn sep pre ++ [ds] := by
  induction pre with
  | nil =>
    rw [List.nil_append]
    simp [pySplitOn, pySplitOn_not_mem sep ds h]
  | cons c pre ih =>
    rw [List.cons_append, pySplitOn_cons, ih, pySplitOn_cons]
    cases hk : pySplitOn sep pre with
    | nil => exact absurd hk (pySplitOn_ne_nil sep pre)
    | cons h0 t0 => by_cases hc : c = sep <;> simp [hc, List.cons_append]

theorem pySplitOn_cons_sep (sep : Char) (hd rest : List Char) (h : sep ∉ hd) :
    pySplitOn sep (hd ++ sep :: rest) = hd :: pySplitOn sep rest := by
  induction hd with
  | nil =>
    simp only [List.nil_append, pySplitOn]
    cases hk : pySplitOn sep rest with
    | nil => exact absurd hk (pySplitOn_ne_nil sep rest)
    | cons a t => simp
  | cons c hd ih =>
    have hc : c ≠ sep := fun heq => h (heq ▸ List.mem_cons_self _ _)
    have hhd : sep ∉ hd := fun hm => h (List.mem_cons_of_mem _ hm)
    rw [List.cons_append, pySplitOn_cons, ih hhd]
    simp [hc]

theorem parseParts_some (parts : List (List Char)) (e : PortEntry)
    (h : parseParts parts = some e) :
    e.process_name = parts.headD [] ∧ e.status = listenStatus ∧
      ¬ parts.length < 9 ∧
      pyInt (parts.getD 1 []) = some e.pid ∧
      (parts.getD (parts.length - 2) []).contains ':' = true ∧
      pyInt ((pySplitOn ':' (parts.getD (parts.length - 2) [])).getLastD []) =
        some e.port := by
  simp only [parseParts] at h
  split at h
  · exact Option.noConfusion h
  · rename_i hlen
    split at h
    · exact Option.noConfusion h
    · rename_i pid hpid
      split at h
      · rename_i hcontains
        split at h
        · exact Option.noConfusion h
        · rename_i port hport
          injection h with h2
          subst h2
          exact ⟨rfl, rfl, hlen, hpid, hcontains, hport⟩
      · exact Option.noConfusion h

theorem get_provenance (r : RunResult) (e : PortEntry)
    (h : e ∈ get_port_processes r) :
    ∃ l, l ∈ runLines r ∧ parseLine l = some e := by
  cases r with
  | fileNotFound => simp [get_port_processes] at h
  | subprocessError => simp [get_port_processes] at h
  | ok stdout code =>
    simp only [get_port_processes] at h
    split at h
    · simp at h
    · exact processLines_provenance _ _ e
        ((List.mergeSort_perm _ portLE).mem_iff.mp h)

theorem get_ports_nodup (r : RunResult) :
    ((get_port_processes r).map PortEntry.port).Nodup := by
  cases r with
  | fileNotFound => simp [get_port_processes]
  | subprocessError => simp [get_port_processes]
  | ok stdout code =>
    simp only [get_port_processes]
    split
    · simp
    · have hperm := List.mergeSort_perm (processLines (outputLines stdout) []) portLE
      exact ((hperm.map PortEntry.port).nodup_iff).mpr
        (processLines_ports_nodup (outputLines stdout) [])

theorem get_sorted (r : RunResult) :
    (get_port_processes r).Pairwise (fun a b => a.port ≤ b.port) := by
  cases r with
  | fileNotFound => simp [get_port_processes]
  | subprocessError => simp [get_port_processes]
  | ok stdout code =>
    simp only [get_port_processes]
    split
    · simp
    · have htrans : ∀ a b c : PortEntry,
          portLE a b = true → portLE b c = true → portLE a c = true := by
        intro a b c h1 h2
        simp only [portLE, decide_eq_true_eq] at h1 h2 ⊢
        omega
      have htotal : ∀ a b : PortEntry, (portLE a b || portLE b a) = true := by
        intro a b
        simp only [portLE, Bool.or_eq_true, decide_eq_true_eq]
        omega
      have hs := List.sorted_mergeSort htrans htotal (processLines (outputLines stdout) [])
      exact hs.imp (fun hab => by simpa [portLE] using hab)

theorem dropWhile_isEmpty_eq_false (p : Char → Bool) (l : List Char)
    (h : ∃ c ∈ l, p c = false) : (l.dropWhile p).isEmpty = false := by
  rcases h with ⟨c, hc, hcp⟩
  cases hk : l.dropWhile p with
  | nil =>
    have := List.dropWhile_eq_nil_iff.mp hk c hc
    rw [this] at hcp
    exact Bool.noConfusion hcp
  | cons a t => rfl

theorem pyStrip_header (hd body : List Char)
    (h1 : (hd.headD ' ').isWhitespace = false)
    (h3 : ∃ c ∈ body, c.isWhitespace = false) :
    pyStrip (hd ++ '\n' :: body) =
      hd ++ '\n' :: (body.reverse.dropWhile Char.isWhitespace).reverse := by
  obtain ⟨c0, hd', rfl⟩ : ∃ c0 hd', hd = c0 :: hd' := by
    cases hd with
    | nil => simp at h1
    | cons a l => exact ⟨a, l, rfl⟩
  simp only [List.headD_cons] at h1
  unfold pyStrip
  rw [List.cons_append, List.dropWhile_cons, h1]
  simp only [Bool.false_eq_true, if_false]
  rw [← List.cons_append]
  rw [List.reverse_append, List.reverse_cons, List.append_assoc]
  rw [List.dropWhile_append]
  rw [dropWhile_isEmpty_eq_false Char.isWhitespace body.reverse
    (by rcases h3 with ⟨c, hc, hcp⟩; exact ⟨c, List.mem_reverse.mpr hc, hcp⟩)]
  simp only [Bool.false_eq_true, if_false]
  rw [List.reverse_append, List.reverse_append, List.reverse_reverse]
  simp

theorem outputLines_drops_first (hd body : List Char)
    (h1 : (hd.headD ' ').isWhitespace = false)
    (h2 : '\n' ∉ hd)
    (h3 : ∃ c ∈ body, c.isWhitespace = false) :
    outputLines (hd ++ '\n' :: body) =
      pySplitOn '\n' ((body.reverse.dropWhile Char.isWhitespace).reverse) := by
  unfold outputLines
  rw [pyStrip_header hd body h1 h3]
  rw [pySplitOn_cons_sep '\n' hd _ h2]
  rfl

/-- Concrete lsof-shaped output: a header line, two records sharing port
3000 (dual-stack style duplicate) and one record on port 80. -/
def sampleStdout : List Char :=
  ("COMMAND PID USER FD TYPE DEVICE SIZE/OFF NODE NAME\n" ++
   "python 123 root 3u IPv4 0 0t0 TCP *:3000 (LISTEN)\n" ++
   "node 456 root 3u IPv6 0 0t0 TCP *:3000 (LISTEN)\n" ++
   "nginx 789 root 3u IPv4 0 0t0 TCP 127.0.0.1:80 (LISTEN)").data

/-- Concrete output whose single record carries a port outside 0..65535. -/
def sampleStdoutBigPort : List Char :=
  ("COMMAND PID USER FD TYPE DEVICE SIZE/OFF NODE NAME\n" ++
   "python 123 root 3u IPv4 0 0t0 TCP *:70000 (LISTEN)").data

/-- Claim C1: every modelled environment outcome of the backend invocation
(listing tool missing, subprocess failure, empty output) is handled by
get_port_processes with a plain empty-list return value, never an
exception: the function is total over RunResult and the unrecoverable
branches all produce the empty sequence. -/
theorem C1_enumeration_failure_empty :
    get_port_processes RunResult.fileNotFound = [] ∧
    get_port_processes RunResult.subprocessError = [] ∧
    ∀ code : Int, get_port_processes (RunResult.ok [] code) = [] :=
  ⟨rfl, rfl, fun _ => rfl⟩

/-- Claim C2: for every backend outcome, the ports of the returned
sequence are in strictly ascending order (each adjacent pair, and in fact
each ordered pair, satisfies <). -/
theorem C2_ports_strictly_ascending (r : RunResult) :
    ((get_port_processes r).map PortEntry.port).Pairwise (· < ·) := by
  have hle : (get_port_processes r).Pairwise (fun a b => a.port ≤ b.port) :=
    get_sorted r
  have hne : (get_port_processes r).Pairwise (fun a b => a.port ≠ b.port) :=
    List.pairwise_map.mp (get_ports_nodup r)
  refine List.pairwise_map.mpr ((hle.and hne).imp ?_)
  intro a b hab
  exact lt_of_le_of_ne hab.1 hab.2

/-- Claim C5: the kill flow issues a termination signal only after an
affirmative confirmation; a declined confirmation produces no effect at
all on a nonempty table, an empty table produces only the informational
status message, and any signal in the effect list implies the
confirmation was true. -/
theorem C5_confirmation_gating :
    (∀ (rows : List (Int × Int × String)) (cursor : Nat)
        (outcome : KillOutcome) (pid : Int),
      Effect.sendSignal pid ∉ action_kill_process rows cursor false outcome) ∧
    (∀ (row : Int × Int × String) (rest : List (Int × Int × String))
        (cursor : Nat) (outcome : KillOutcome),
      action_kill_process (row :: rest) cursor false outcome = []) ∧
    (∀ (cursor : Nat) (confirmed : Bool) (outcome : KillOutcome),
      action_kill_process [] cursor confirmed outcome =
        [Effect.setStatus "No processes to kill"]) ∧
    (∀ (rows : List (Int × Int × String)) (cursor : Nat) (confirmed : Bool)
        (outcome : KillOutcome) (pid : Int),
      Effect.sendSignal pid ∈ action_kill_process rows cursor confirmed outcome →
      confirmed = true) := by
  refine ⟨?_, ?_, ?_, ?_⟩
  · intro rows cursor outcome pid
    cases rows <;> simp [action_kill_process]
  · intro row rest cursor outcome
    simp [action_kill_process]
  · intro cursor confirmed outcome
    rfl
  · intro rows cursor confirmed outcome pid h
    cases confirmed with
    | true => rfl
    | false => cases rows <;> simp [action_kill_process] at h

/-- Claim C5 witness: with one row selected, a declined confirmation
yields no effects, and the signal present after an affirmative
confirmation certifies confirmed = true. -/
theorem C5_witness :
    action_kill_process [(3000, 123, "python")] 0 false KillOutcome.success = [] ∧
    true = true :=
  ⟨C5_confirmation_gating.2.1 (3000, 123, "python") [] 0 KillOutcome.success,
   C5_confirmation_gating.2.2.2 [(3000, 123, "python")] 0 true KillOutcome.success 123
     (by simp [action_kill_process, kill_process])⟩

/-- Claim C6: the termination handler refreshes the inventory exactly for
the Succeeded (signal sent) and AlreadyGone (NoSuchProcess) outcomes,
while AccessDenied and any unexpected error instead emit a user-visible
error notification with the 5-second timeout and no refresh. -/
theorem C6_refresh_iff_success_or_gone (pid : Int) (name : String)
    (outcome : KillOutcome) :
    (Effect.refreshTable ∈ kill_process pid name outcome ↔
      outcome = KillOutcome.success ∨ outcome = KillOutcome.noSuchProcess) ∧
    ((outcome = KillOutcome.accessDenied ∨ ∃ m, outcome = KillOutcome.unexpected m) →
      ∃ msg, Effect.notifyError msg 5 ∈ kill_process pid name outcome ∧
        Effect.refreshTable ∉ kill_process pid name outcome) := by
  refine ⟨?_, ?_⟩
  · cases outcome <;> simp [kill_process]
  · intro hout
    cases outcome with
    | success => rcases hout with h | ⟨m, h⟩ <;> exact KillOutcome.noConfusion h
    | noSuchProcess => rcases hout with h | ⟨m, h⟩ <;> exact KillOutcome.noConfusion h
    | accessDenied =>
      refine ⟨"Permission denied: cannot kill " ++ name ++ " (PID: " ++ toString pid ++ ")",
        ?_, ?_⟩ <;> simp [kill_process]
    | unexpected m =>
      refine ⟨"Error killing process: " ++ m, ?_, ?_⟩ <;> simp [kill_process]

/-- Claim C6 witness: at the AccessDenied outcome the handler emits the
error notification with no refresh. -/
theorem C6_witness :
    ∃ msg, Effect.notifyError msg 5 ∈ kill_process 123 "python" KillOutcome.accessDenied ∧
      Effect.refreshTable ∉ kill_process 123 "python" KillOutcome.accessDenied :=
  (C6_refresh_iff_success_or_gone 123 "python" KillOutcome.accessDenied).2 (Or.inl rfl)

set_option maxRecDepth 10000 in
unseal List.merge List.mergeSort in
/-- Claim C9 counterexample: a failed (exit code 1) invocation whose
stdout still carries records does NOT return the empty sequence, so the
claim as stated is false. -/
theorem C9_counterexample_nonzero_exit :
    ¬ (∀ (stdout : List Char) (code : Int), code ≠ 0 →
        get_port_processes (RunResult.ok stdout code) = []) := by
  intro hclaim
  have h := hclaim sampleStdout 1 (by decide)
  exact absurd h (by decide)

/-- Claim C9 amended: the exit status of the external command is ignored
entirely; the result depends only on the captured stdout (so a failed
invocation does not crash), and an empty stdout yields the empty
sequence. -/
theorem C9_exit_code_ignored :
    (∀ (stdout : List Char) (c c' : Int),
      get_port_processes (RunResult.ok stdout c) =
        get_port_processes (RunResult.ok stdout c')) ∧
    ∀ c : Int, get_port_processes (RunResult.ok [] c) = [] :=
  ⟨fun _ _ _ => rfl, fun _ => rfl⟩

/-- Claim C3: no two returned entries share a port, and the entry kept
for a port is the parse of the first backend record carrying that port,
in backend-reported order (first-seen wins across duplicates). -/
theorem C3_ports_unique_first_seen :
    (∀ r : RunResult, ((get_port_processes r).map PortEntry.port).Nodup) ∧
    ∀ (stdout : List Char) (code : Int) (e : PortEntry),
      e ∈ get_port_processes (RunResult.ok stdout code) →
      firstRecordWithPort e.port (outputLines stdout) = some e := by
  refine ⟨get_ports_nodup, ?_⟩
  intro stdout code e h
  simp only [get_port_processes] at h
  split at h
  · simp at h
  · exact processLines_first_seen _ _ e ((List.mergeSort_perm _ portLE).mem_iff.mp h)

set_option maxRecDepth 10000 in
unseal List.merge List.mergeSort in
/-- Claim C3 witness: on the dual-stack sample the entry kept for port
3000 is the parse of the first record with that port (pid 123, not the
later pid 456). -/
theorem C3_witness :
    firstRecordWithPort 3000 (outputLines sampleStdout) =
      some ⟨3000, 123, "python".data, listenStatus⟩ :=
  C3_ports_unique_first_seen.2 sampleStdout 0 ⟨3000, 123, "python".data, listenStatus⟩
    (by decide)

set_option maxRecDepth 10000 in
unseal List.merge List.mergeSort in
/-- Claim C4 counterexample: get_port_processes performs no per-PID
process-name lookup at all.  Quantifying the claim over the lookup
environment (env pid = none models a process that exited before lookup or
a denied lookup), the produced entry keeps the COMMAND-column text, here
"python", never the "unknown" sentinel, so the claim as stated is
false. -/
theorem C4_counterexample_no_unknown_sentinel :
    ¬ (∀ (env : Int → Option (List Char)) (e : PortEntry),
        e ∈ get_port_processes (RunResult.ok sampleStdout 0) →
        env e.pid = none → e.process_name = "unknown".data) := by
  intro hclaim
  have h := hclaim (fun _ => none) ⟨3000, 123, "python".data, listenStatus⟩
    (by decide) rfl
  exact absurd h (by decide)

/-- Claim C4 amended: the resolver never substitutes an "unknown"
sentinel because it performs no per-PID lookup; each returned entry takes
its processName verbatim from the first whitespace-separated field (the
COMMAND column) of the backend record it was parsed from, and its status
is the fixed LISTEN tag. -/
theorem C4_name_from_command_column (r : RunResult) (e : PortEntry)
    (h : e ∈ get_port_processes r) :
    ∃ l, l ∈ runLines r ∧ parseLine l = some e ∧
      e.process_name = (pySplitWS l).headD [] ∧ e.status = listenStatus := by
  rcases get_provenance r e h with ⟨l, hl, hpl⟩
  have h2 := parseParts_some (pySplitWS l) e hpl
  exact ⟨l, hl, hpl, h2.1, h2.2.1⟩

set_option maxRecDepth 10000 in
unseal List.merge List.mergeSort in
/-- Claim C4 amended witness: the port-3000 entry of the sample descends
from a data line whose first field is its process name. -/
theorem C4_witness :
    ∃ l, l ∈ runLines (RunResult.ok sampleStdout 0) ∧
      parseLine l = some ⟨3000, 123, "python".data, listenStatus⟩ ∧
      (⟨3000, 123, "python".data, listenStatus⟩ : PortEntry).process_name =
        (pySplitWS l).headD [] ∧
      (⟨3000, 123, "python".data, listenStatus⟩ : PortEntry).status = listenStatus :=
  C4_name_from_command_column (RunResult.ok sampleStdout 0)
    ⟨3000, 123, "python".data, listenStatus⟩ (by decide)

set_option maxRecDepth 10000 in
unseal List.merge List.mergeSort in
/-- Claim C8 counterexample: the code never range-checks ports, so a
backend record carrying *:70000 produces an entry with port 70000 and the
0..65535 bound stated by the claim is false over all backend outputs. -/
theorem C8_counterexample_port_out_of_range :
    ¬ (∀ (r : RunResult) (e : PortEntry), e ∈ get_port_processes r →
        0 ≤ e.port ∧ e.port ≤ 65535) := by
  intro hclaim
  have h := hclaim (RunResult.ok sampleStdoutBigPort 0)
    ⟨70000, 123, "python".data, listenStatus⟩ (by decide)
  exact absurd h.2 (by decide)

/-- Claim C8 amended: get_port_processes applies no range check; each
returned port is whatever integer its record text parsed to.  The range
property holds exactly conditionally: whenever every parsable data line
of the output carries a port within 0..65535, every returned entry does
too. -/
theorem C8_port_range_conditional (r : RunResult)
    (hbound : ∀ l ∈ runLines r,
      ((parseLine l).all fun e => decide (0 ≤ e.port ∧ e.port ≤ 65535)) = true) :
    ∀ e ∈ get_port_processes r, 0 ≤ e.port ∧ e.port ≤ 65535 := by
  intro e he
  rcases get_provenance r e he with ⟨l, hl, hpl⟩
  have hb := hbound l hl
  rw [hpl] at hb
  simpa using hb

set_option maxRecDepth 10000 in
unseal List.merge List.mergeSort in
/-- Claim C8 amended witness: the sample output is all in range, and so
is the returned port-3000 entry. -/
theorem C8_witness :
    0 ≤ (⟨3000, 123, "python".data, listenStatus⟩ : PortEntry).port ∧
      (⟨3000, 123, "python".data, listenStatus⟩ : PortEntry).port ≤ 65535 :=
  C8_port_range_conditional (RunResult.ok sampleStdout 0) (by decide)
    ⟨3000, 123, "python".data, listenStatus⟩ (by decide)

/-- Claim C7: port extraction takes the digits after the last colon of
the NAME column, accepting address-qualified and wildcard forms alike
(conjunct 6, stated for an arbitrary prefix before the last colon), and a
malformed line — too few fields, non-integer PID text, NAME column
without a colon, or non-integer port text — parses to none (conjuncts
2-5) and is simply skipped by the processing loop, leaving the remaining
lines intact (conjunct 1). -/
theorem C7_malformed_skipped_and_port_forms :
    (∀ (line : List Char) (rest : List (List Char)) (seen : List Int),
      parseLine line = none →
      processLines (line :: rest) seen = processLines rest seen) ∧
    (∀ line : List Char, (pySplitWS line).length < 9 → parseLine line = none) ∧
    (∀ line : List Char, pyInt ((pySplitWS line).getD 1 []) = none →
      parseLine line = none) ∧
    (∀ line : List Char,
      ((pySplitWS line).getD ((pySplitWS line).length - 2) []).contains ':' = false →
      parseLine line = none) ∧
    (∀ line : List Char,
      pyInt ((pySplitOn ':'
          ((pySplitWS line).getD ((pySplitWS line).length - 2) [])).getLastD []) = none →
      parseLine line = none) ∧
    (∀ (line : List Char) (pre ds : List Char) (pid port : Int),
      ¬ (pySplitWS line).length < 9 →
      pyInt ((pySplitWS line).getD 1 []) = some pid →
      (pySplitWS line).getD ((pySplitWS line).length - 2) [] = pre ++ ':' :: ds →
      ':' ∉ ds →
      pyInt ds = some port →
      parseLine line =
        some ⟨port, pid, (pySplitWS line).headD [], listenStatus⟩) := by
  refine ⟨?_, ?_, ?_, ?_, ?_, ?_⟩
  · intro line rest seen h
    simp only [processLines, h]
  · intro line h
    simp only [parseLine, parseParts, if_pos h]
  · intro line h
    cases hres : parseLine line with
    | none => rfl
    | some e =>
      rcases parseParts_some _ _ hres with ⟨-, -, -, hpid, -, -⟩
      rw [h] at hpid
      exact Option.noConfusion hpid
  · intro line h
    cases hres : parseLine line with
    | none => rfl
    | some e =>
      rcases parseParts_some _ _ hres with ⟨-, -, -, -, hcontains, -⟩
      rw [h] at hcontains
      exact Bool.noConfusion hcontains
  · intro line h
    cases hres : parseLine line with
    | none => rfl
    | some e =>
      rcases parseParts_some _ _ hres with ⟨-, -, -, -, -, hport⟩
      rw [h] at hport
      exact Option.noConfusion hport
  · intro line pre ds pid port hlen hpid hname hds hport
    simp only [parseLine, parseParts, if_neg hlen, hpid]
    have hcon : ((pySplitWS line).getD ((pySplitWS line).length - 2) []).contains ':' = true := by
      rw [hname]
      simp
    simp only [hcon, if_true, hname]
    rw [pySplitOn_append_sep ':' pre ds hds, List.getLastD_concat, hport]
    simp

set_option maxRecDepth 10000 in
/-- Claim C7 witness: concrete instances for each conjunct — a garbage
line is skipped without disturbing the rest, each malformed shape parses
to none, and both the wildcard *:3000 and the address-qualified
127.0.0.1:8080 NAME forms yield their port. -/
theorem C7_witness :
    processLines ["garbage".data,
        "nginx 789 root 3u IPv4 0 0t0 TCP 127.0.0.1:80 (LISTEN)".data] [] =
      processLines ["nginx 789 root 3u IPv4 0 0t0 TCP 127.0.0.1:80 (LISTEN)".data] [] ∧
    parseLine "a b".data = none ∧
    parseLine "python abc root 3u IPv4 0 0t0 TCP *:3000 (LISTEN)".data = none ∧
    parseLine "python 123 root 3u IPv4 0 0t0 TCP noport (LISTEN)".data = none ∧
    parseLine "python 123 root 3u IPv4 0 0t0 TCP *:abc (LISTEN)".data = none ∧
    parseLine "python 123 root 3u IPv4 0 0t0 TCP *:3000 (LISTEN)".data =
      some ⟨3000, 123,
        (pySplitWS "python 123 root 3u IPv4 0 0t0 TCP *:3000 (LISTEN)".data).headD [],
        listenStatus⟩ ∧
    parseLine "nginx 789 root 3u IPv4 0 0t0 TCP 127.0.0.1:8080 (LISTEN)".data =
      some ⟨8080, 789,
        (pySplitWS "nginx 789 root 3u IPv4 0 0t0 TCP 127.0.0.1:8080 (LISTEN)".data).headD [],
        listenStatus⟩ :=
  ⟨C7_malformed_skipped_and_port_forms.1 _ _ [] (by decide),
   C7_malformed_skipped_and_port_forms.2.1 _ (by decide),
   C7_malformed_skipped_and_port_forms.2.2.1 _ (by decide),
   C7_malformed_skipped_and_port_forms.2.2.2.1 _ (by decide),
   C7_malformed_skipped_and_port_forms.2.2.2.2.1 _ (by decide),
   C7_malformed_skipped_and_port_forms.2.2.2.2.2 _ "*".data "3000".data 123 3000
     (by decide) (by decide) (by decide) (by decide) (by decide),
   C7_malformed_skipped_and_port_forms.2.2.2.2.2 _ "127.0.0.1".data "8080".data 789 8080
     (by decide) (by decide) (by decide) (by decide) (by decide)⟩

/-- Claim C10: the first line of the captured output is dropped
unconditionally as a header — the result is entirely independent of the
content of that first line, even when it is itself a well-formed
record. -/
theorem C10_header_line_always_dropped
    (hd1 hd2 body : List Char) (code1 code2 : Int)
    (h11 : (hd1.headD ' ').isWhitespace = false) (h12 : '\n' ∉ hd1)
    (h21 : (hd2.headD ' ').isWhitespace = false) (h22 : '\n' ∉ hd2)
    (h3 : ∃ c ∈ body, c.isWhitespace = false) :
    get_port_processes (RunResult.ok (hd1 ++ '\n' :: body) code1) =
      get_port_processes (RunResult.ok (hd2 ++ '\n' :: body) code2) := by
  have hne : ∀ (l : List Char) (c : Char) (m : List Char),
      (l ++ c :: m).isEmpty = false := by
    intro l c m
    cases l <;> rfl
  simp only [get_port_processes, hne, Bool.false_eq_true, if_false]
  rw [outputLines_drops_first hd1 body h11 h12 h3,
      outputLines_drops_first hd2 body h21 h22 h3]

set_option maxRecDepth 10000 in
/-- Claim C10 witness: swapping a well-formed record line in as the first
line against the usual lsof header leaves the result unchanged — the
record in first position is parsed by parseLine yet contributes
nothing. -/
theorem C10_witness :
    parseLine "python 123 root 3u IPv4 0 0t0 TCP *:3000 (LISTEN)".data =
      some ⟨3000, 123, "python".data, listenStatus⟩ ∧
    get_port_processes (RunResult.ok
        ("python 123 root 3u IPv4 0 0t0 TCP *:3000 (LISTEN)".data ++ '\n' ::
          "nginx 789 root 3u IPv4 0 0t0 TCP 127.0.0.1:80 (LISTEN)".data) 0) =
      get_port_processes (RunResult.ok
        ("COMMAND PID USER FD TYPE DEVICE SIZE/OFF NODE NAME".data ++ '\n' ::
          "nginx 789 root 3u IPv4 0 0t0 TCP 127.0.0.1:80 (LISTEN)".data) 0) :=
  ⟨by decide,
   C10_header_line_always_dropped _ _ _ 0 0
     (by decide) (by decide) (by decide) (by decide) (by decide)⟩

end Pui
